import Mathlib

/-!
Verification development for the Tool_Auto_Trade signal bot (src/bot.js).

The file shallowly embeds the signal-detection and scoring pipeline of the
bot: the structure detectors (`detectBOS`, `detectOrderBlock`, `detectFVG`,
`detectCandlePattern`, `detectLiquidityZone`, and the unguarded
`detectLiquidity` variant), the idea scorer (`scoreIdea`, `generateIdea`),
the per-symbol analysis (`fullAnalysis`), and the signal-continuity policy
of `autoScanAll` (`policyStep`, `runPolicy`, `runCycleExc`, `runCycles`).

Conventions of the embedding:
  - JS numbers are modelled as rationals (`ℚ`); `x.toFixed(d)` followed by
    the unary plus is modelled by `toFixedQ d`, rounding to `d` decimal
    places with ties away from the smaller integer, as the JS definition
    prescribes (choose the larger candidate integer on a tie).
  - `Date.now()` timestamps are naturals (milliseconds); `now - t > k` on
    naturals agrees with the JS signed comparison for all inputs, since
    both sides are false whenever `now ≤ t + k`.
  - Duck-typed result objects become structures with `Option` fields; a
    missing field is `none`.
  - A JS exception is modelled with `Except` where it can actually occur.
-/

namespace AutoTrade

/-- One OHLCV candle as built by `fetchKlines` (src/bot.js lines 351-360):
`{ t, open, high, low, close, vol }`.  The `open` field is written `«open»`
because `open` is reserved in Lean. -/
structure Bar where
  t : ℕ
  «open» : ℚ
  high : ℚ
  low : ℚ
  close : ℚ
  vol : ℚ
deriving DecidableEq, Repr, Inhabited

/-- Direction tag of a break-of-structure signal. -/
inductive BosType where
  | BOS_UP
  | BOS_DOWN
deriving DecidableEq, Repr

/-- Output of `detectBOS`: `{ type, price }`. -/
structure BOS where
  type : BosType
  price : ℚ
deriving DecidableEq, Repr

/-- Output of `detectOrderBlock`: `{ bullish: Bar|null, bearish: Bar|null }`. -/
structure OrderBlocks where
  bullish : Option Bar
  bearish : Option Bar
deriving DecidableEq, Repr

/-- Direction tag of a fair-value gap. -/
inductive FvgType where
  | FVG_UP
  | FVG_DOWN
deriving DecidableEq, Repr

/-- Output of `detectFVG` (src/bot.js lines 367-376): `{ type, idx, low, high }`. -/
structure FVG where
  type : FvgType
  idx : ℕ
  low : ℚ
  high : ℚ
deriving DecidableEq, Repr

/-- Output of `detectLiquidityZone` (src/bot.js lines 401-409):
`{ type: 'LIQUIDITY_ZONE', vol, avgVol }` (the constant `type` tag is
implicit in the Lean type). -/
structure Liq where
  vol : ℚ
  avgVol : ℚ
deriving DecidableEq, Repr

/-- Output of the unguarded `detectLiquidity` variant (src/bot.js lines
124-131): `{ type: 'LIQUIDITY_ZONE', vol }`. -/
structure Liq1 where
  vol : ℚ
deriving DecidableEq, Repr

/-- Candle-pattern classification returned by `detectCandlePattern`. -/
inductive CandlePattern where
  | ShootingStar
  | Hammer
  | BullishEngulfing
  | BearishEngulfing
deriving DecidableEq, Repr

/-- `detectBOS(candles, lookback)` (src/bot.js lines 339-350): guard
`candles.length < lookback`, take the last `lookback` bars, compare the
newest close against the extreme high/low of the rest of the window.
The `match` arms returning `none` for an empty window are unreachable at
every call site (`lookback` is 20 or 12); in JS they would correspond to
comparing against `±Infinity`. -/
def detectBOS (candles : List Bar) (lookback : ℕ) : Option BOS :=
  if candles.length < lookback then none
  else
    let slice := candles.drop (candles.length - lookback)
    match slice.getLast? with
    | none => none
    | some last =>
      match (slice.dropLast.map (fun c => c.high)).max?,
            (slice.dropLast.map (fun c => c.low)).min? with
      | some recentHigh, some recentLow =>
          if last.close > recentHigh then some ⟨BosType.BOS_UP, last.close⟩
          else if last.close < recentLow then some ⟨BosType.BOS_DOWN, last.close⟩
          else none
      | _, _ => none

/-- `detectOrderBlock(candles)` (src/bot.js lines 352-365): over the five
bars `slice(-6, -1)`, a bar whose body exceeds 0.6 of its range (a zero
range counts as 1, the JS `|| 1`) overwrites the bullish or bearish slot,
so the nearest qualifying bar of each polarity wins. -/
def detectOrderBlock (candles : List Bar) : OrderBlocks :=
  if candles.length < 6 then ⟨none, none⟩
  else
    let last5 := (candles.drop (candles.length - 6)).dropLast
    last5.foldl
      (fun blocks c =>
        let body := |c.close - c.«open»|
        let range := if c.high - c.low = 0 then 1 else c.high - c.low
        if body > range * 0.6 then
          if c.close > c.«open» then { blocks with bullish := some c }
          else { blocks with bearish := some c }
        else blocks)
      ⟨none, none⟩

/-- The body of one iteration of the `detectFVG` loop at index `i`
(src/bot.js lines 369-373): an Up gap when `candles[i].low > candles[i-2].high`,
a Down gap when `candles[i].high < candles[i-2].low`. -/
def gapAt (candles : List Bar) (i : ℕ) : Option FVG :=
  let c := candles.getD i default
  let c2 := candles.getD (i - 2) default
  if c.low > c2.high then some ⟨FvgType.FVG_UP, i, c2.high, c.low⟩
  else if c.high < c2.low then some ⟨FvgType.FVG_DOWN, i, c.high, c2.low⟩
  else none

/-- The backward scan of `detectFVG`: from index `i` down to 2, return the
first gap found. -/
def fvgLoop (candles : List Bar) : ℕ → Option FVG
  | 0 => none
  | 1 => none
  | i + 2 =>
    match gapAt candles (i + 2) with
    | some g => some g
    | none => fvgLoop candles (i + 1)

/-- `detectFVG(candles)` (src/bot.js lines 367-376): guard
`candles.length < 5`, then scan indices from `length - 3` down to 2 and
return the first (most recent) gap, else null. -/
def detectFVG (candles : List Bar) : Option FVG :=
  if candles.length < 5 then none
  else fvgLoop candles (candles.length - 3)

/-- `detectCandlePattern(candles)` (src/bot.js lines 386-399): classify the
newest bar against its predecessor; first matching rule wins. -/
def detectCandlePattern (candles : List Bar) : Option CandlePattern :=
  if candles.length < 2 then none
  else
    let last := candles.getD (candles.length - 1) default
    let prev := candles.getD (candles.length - 2) default
    let body := |last.close - last.«open»|
    let range := if last.high - last.low = 0 then 1 else last.high - last.low
    let upper := last.high - max last.«open» last.close
    let lower := min last.«open» last.close - last.low
    if body < range * 0.3 ∧ upper > lower * 2 then some CandlePattern.ShootingStar
    else if body < range * 0.3 ∧ lower > upper * 2 then some CandlePattern.Hammer
    else if last.close > prev.«open» ∧ last.«open» < prev.close ∧ last.close > last.«open» then
      some CandlePattern.BullishEngulfing
    else if last.close < prev.«open» ∧ last.«open» > prev.close ∧ last.close < last.«open» then
      some CandlePattern.BearishEngulfing
    else none

/-- `detectLiquidityZone(candles)` (src/bot.js lines 401-409): guard
`candles.length < 10`, average the volumes of the last 30 bars
(`Math.max(1, vols.length)` in the divisor), and signal when the newest
volume exceeds 1.8 times the average.  The JS `if (last && ...)` guard
becomes the `match` on `getLast?`. -/
def detectLiquidityZone (candles : List Bar) : Option Liq :=
  if candles.length < 10 then none
  else
    let recent := candles.drop (candles.length - 30)
    let vols := recent.map (fun c => c.vol)
    let avg := vols.sum / (max 1 vols.length : ℚ)
    match recent.getLast? with
    | none => none
    | some last => if last.vol > avg * 1.8 then some ⟨last.vol, avg⟩ else none

/-- `detectLiquidity(candles)` (src/bot.js lines 124-131), the variant with
no length guard: on an empty sequence `recent.at(-1)` is `undefined` and
the subsequent `last.vol` field access throws a `TypeError`, which the
embedding surfaces as `Except.error`.  (On the empty sequence JS would
also have computed `avg` as `NaN` via `0/0`; the throw happens first, so
the `ℚ` convention `0/0 = 0` is never observable.) -/
def detectLiquidity (candles : List Bar) : Except String (Option Liq1) :=
  let recent := candles.drop (candles.length - 30)
  let vols := recent.map (fun c => c.vol)
  let avg := vols.sum / (vols.length : ℚ)
  match recent.getLast? with
  | none => Except.error "TypeError: Cannot read properties of undefined (reading vol)"
  | some last => Except.ok (if last.vol > avg * 1.8 then some ⟨last.vol⟩ else none)

/-- `(+x.toFixed(d))`: round `x` to `d` decimal places.  JS `toFixed`
chooses the integer `n` minimising `|n / 10^d - x|` and takes the larger
`n` on a tie, which is exactly `⌊x·10^d + 1/2⌋ / 10^d`. -/
def toFixedQ (d : ℕ) (x : ℚ) : ℚ :=
  ((⌊x * 10 ^ d + 1 / 2⌋ : ℤ) : ℚ) / 10 ^ d

/-- Trade direction of an actionable idea. -/
inductive Dir where
  | LONG
  | SHORT
deriving DecidableEq, Repr

/-- The duck-typed idea object of `generateIdea` (src/bot.js lines
422-440): `{ ok:false, reason, score }` or
`{ ok:true, symbol, dir, entry, sl, tp, rr, note, score }`.  Fields that a
given shape does not carry are `none`.  `rr` is the parsed numeric value
of the `toFixed(2)` string. -/
structure Idea where
  ok : Bool
  symbol : Option String := none
  dir : Option Dir := none
  entry : Option ℚ := none
  sl : Option ℚ := none
  tp : Option ℚ := none
  rr : Option ℚ := none
  note : Option String := none
  score : ℕ
  reason : Option String := none
deriving DecidableEq, Repr, Inhabited

/-- `scoreIdea({bos, fvg, ob, pattern, liq})` (src/bot.js lines 412-420):
weights 3/3/2/1/1. -/
def scoreIdea (bos : Option BOS) (fvg : Option FVG) (ob : OrderBlocks)
    (pattern : Option CandlePattern) (liq : Option Liq) : ℕ :=
  (if bos.isSome then 3 else 0) + (if fvg.isSome then 3 else 0) +
    (if ob.bullish.isSome ∨ ob.bearish.isSome then 2 else 0) +
    (if liq.isSome then 1 else 0) + (if pattern.isSome then 1 else 0)

/-- The direction computed at the top of `generateIdea` (src/bot.js lines
423-425): LONG on `BOS_UP`, SHORT on `BOS_DOWN`, null otherwise. -/
def dirOf (bos : Option BOS) : Option Dir :=
  match bos with
  | some b =>
    match b.type with
    | BosType.BOS_UP => some Dir.LONG
    | BosType.BOS_DOWN => some Dir.SHORT
  | none => none

/-- The note tag string of an actionable idea (src/bot.js line 437). -/
def noteString (bos : Option BOS) (fvg : Option FVG) (ob : OrderBlocks)
    (pattern : Option CandlePattern) (liq : Option Liq) : String :=
  (String.intercalate " "
    [match bos with
     | some b => match b.type with
       | BosType.BOS_UP => "BOS_UP"
       | BosType.BOS_DOWN => "BOS_DOWN"
     | none => "",
     match fvg with
     | some g => match g.type with
       | FvgType.FVG_UP => "FVG_UP"
       | FvgType.FVG_DOWN => "FVG_DOWN"
     | none => "",
     if ob.bullish.isSome then "OB_BULL" else "",
     if ob.bearish.isSome then "OB_BEAR" else "",
     match pattern with
     | some CandlePattern.ShootingStar => "ShootingStar"
     | some CandlePattern.Hammer => "Hammer"
     | some CandlePattern.BullishEngulfing => "BullishEngulfing"
     | some CandlePattern.BearishEngulfing => "BearishEngulfing"
     | none => "",
     if liq.isSome then "LIQUIDITY_ZONE" else ""]).trim

/-- `generateIdea(symbol, price, bos, fvg, ob, pattern, liq)` (src/bot.js
lines 422-440): direction from BOS, confluence score, then the strict gate
`dir && fvg && (ob.bullish || ob.bearish) && liq && score >= 6`; on
success, entry at price, 1% stop and 2% target bands rounded to 6
decimals, and `rr = |(tp - entry) / (entry - sl)|` rounded to 2 decimals. -/
def generateIdea (symbol : String) (price : ℚ) (bos : Option BOS) (fvg : Option FVG)
    (ob : OrderBlocks) (pattern : Option CandlePattern) (liq : Option Liq) : Idea :=
  let dir := dirOf bos
  let score := scoreIdea bos fvg ob pattern liq
  if dir.isSome ∧ fvg.isSome ∧ (ob.bullish.isSome ∨ ob.bearish.isSome) ∧ liq.isSome ∧ 6 ≤ score then
    let entry := price
    let sl := if dir = some Dir.LONG then toFixedQ 6 (price * 0.99) else toFixedQ 6 (price * 1.01)
    let tp := if dir = some Dir.LONG then toFixedQ 6 (price * 1.02) else toFixedQ 6 (price * 0.98)
    let rr := toFixedQ 2 |(tp - entry) / (entry - sl)|
    { ok := true, symbol := some symbol, dir := dir, entry := some entry, sl := some sl,
      tp := some tp, rr := some rr, note := some (noteString bos fvg ob pattern liq),
      score := score }
  else { ok := false, score := score, reason := some "Not enough confluence" }

/-- `fullAnalysis(symbol)` (src/bot.js lines 442-464), with the already
fetched 15m klines passed in: `{ ok:false, reason:'no data' }` on an empty
fetch (modelled as `none`), otherwise the idea generated from the newest
close and the five detectors.  The auxiliary 1h/4h fetches and the
`detectSweep` output are diagnostic passthrough fields never consumed by
`generateIdea` or by `autoScanAll`, so the embedding omits them. -/
def fullAnalysis (symbol : String) (kl15 : List Bar) : Option Idea :=
  match kl15.getLast? with
  | none => none
  | some lastBar =>
    some (generateIdea symbol lastBar.close (detectBOS kl15 20) (detectFVG kl15)
      (detectOrderBlock kl15) (detectCandlePattern kl15) (detectLiquidityZone kl15))

/-- `LastSignalRecord`: the value stored in `lastSignals[s]`
(src/bot.js line 509, `{ ...newIdea, _time: Date.now() }`).  The JS object
spreads the idea's fields next to `_time`; the embedding keeps them as a
pair. -/
structure SignalRec where
  idea : Idea
  time : ℕ
deriving DecidableEq, Repr

/-- The announcement emitted by one symbol of the auto-scan loop: either a
fresh idea (src/bot.js line 504) or the re-announcement of the stored
previous record (lines 490, 515). -/
inductive ScanAction where
  | announceNew (idea : Idea)
  | reannounce (rec : SignalRec)
deriving DecidableEq, Repr

/-- The signal-continuity decision of `autoScanAll` for one symbol
(src/bot.js lines 486-523), given the stored record, the freshly computed
idea, and the current time:

  * `newIdea.ok` false: re-announce the previous record and refresh its
    timestamp when it is strictly stronger (`prev.score > (newIdea.score || 0)`)
    and older than 5 minutes (line 487); otherwise nothing.
  * `newIdea.ok` true: announce the new idea and overwrite the record when
    there is no previous record or `newIdea.score >= prev.score`
    (line 502); otherwise re-announce the previous record and refresh its
    timestamp when it is older than 10 minutes (line 513), else nothing.

Returns the emitted action (if any) and the record stored afterwards. -/
def policyStep (prev : Option SignalRec) (newIdea : Idea) (now : ℕ) :
    Option ScanAction × Option SignalRec :=
  if newIdea.ok = false then
    match prev with
    | some p =>
      if newIdea.score < p.idea.score ∧ 5 * 60000 < now - p.time then
        (some (ScanAction.reannounce p), some { p with time := now })
      else (none, some p)
    | none => (none, none)
  else
    match prev with
    | none => (some (ScanAction.announceNew newIdea), some ⟨newIdea, now⟩)
    | some p =>
      if p.idea.score ≤ newIdea.score then
        (some (ScanAction.announceNew newIdea), some ⟨newIdea, now⟩)
      else if 10 * 60000 < now - p.time then
        (some (ScanAction.reannounce p), some { p with time := now })
      else (none, some p)

/-- A run of consecutive continuity decisions for one symbol: each element
of the trace is the `(Date.now(), idea)` pair of one scan cycle.  Returns
the timestamped actions emitted and the final stored record. -/
def runPolicy (st : Option SignalRec) : List (ℕ × Idea) → List (ℕ × ScanAction) × Option SignalRec
  | [] => ([], st)
  | (now, idea) :: rest =>
    let step := policyStep st idea now
    let further := runPolicy step.2 rest
    ((step.1.map (fun a => (now, a))).toList ++ further.1, further.2)

/-- The per-symbol `lastSignals` map (src/bot.js `readLastSignals`). -/
def Store := String → Option SignalRec

/-- The empty `lastSignals` map (the `{}` default of `readLastSignals`). -/
def emptyStore : Store := fun _ => none

/-- What one symbol of a scan cycle yields before the continuity decision:
either the fetched bar list (`fetchKlines` returns `[]` on a fetch error,
src/bot.js lines 361-363), or an exception thrown while the symbol is
being processed (for example by a storage write), which `autoScanAll`
only catches at the cycle boundary. -/
inductive SymOutcome where
  | bars (kl : List Bar)
  | exn
deriving DecidableEq

/-- The body of the `for (const s of AUTO_COINS)` loop for one symbol with
fetched bars (src/bot.js lines 479-523): run `fullAnalysis`, skip on
`!r.ok` (no data), otherwise apply the continuity decision and store its
record. -/
def processSymbol (store : Store) (s : String) (kl : List Bar) (now : ℕ) :
    Option (String × ScanAction) × Store :=
  match fullAnalysis s kl with
  | none => (none, store)
  | some newIdea =>
    let step := policyStep (store s) newIdea now
    (step.1.map (fun a => (s, a)), fun x => if x = s then step.2 else store x)

/-- One `autoScanAll` cycle over a symbol list (src/bot.js lines 475-548):
symbols are processed sequentially; an exception thrown while processing a
symbol propagates to the single `try/catch` wrapping the whole loop
(lines 476, 545-547), so the remaining symbols of that cycle are skipped.
Returns the announcements emitted and the resulting store. -/
def runCycleExc (outcome : String → SymOutcome) (now : ℕ) :
    Store → List String → List (String × ScanAction) × Store
  | store, [] => ([], store)
  | store, s :: rest =>
    match outcome s with
    | SymOutcome.exn => ([], store)
    | SymOutcome.bars kl =>
      let step := processSymbol store s kl now
      let further := runCycleExc outcome now step.2 rest
      (step.1.toList ++ further.1, further.2)

/-- A sequence of scan cycles, each with its own fetch outcomes, timestamp
and symbol list, threading the `lastSignals` store through. -/
def runCycles (store : Store) : List ((String → SymOutcome) × ℕ × List String) → Store
  | [] => store
  | (outcome, now, syms) :: rest => runCycles (runCycleExc outcome now store syms).2 rest

/-- The shape of every actionable idea built by the `ok:true` branch of
`generateIdea` (src/bot.js line 439): the `ok` flag is set and the symbol,
direction, entry, stop-loss, take-profit, risk-reward and note fields are
all present. -/
def ActionableShape (i : Idea) : Prop :=
  i.ok = true ∧ i.symbol.isSome = true ∧ i.dir.isSome = true ∧ i.entry.isSome = true ∧
    i.sl.isSome = true ∧ i.tp.isSome = true ∧ i.rr.isSome = true ∧ i.note.isSome = true

/-!  Concrete fixtures used by witnesses and counterexamples.  -/

/-- A bar with the given open/high/low/close/volume. -/
def mkBar (o h l c v : ℚ) : Bar := ⟨0, o, h, l, c, v⟩

/-- Twenty bars on which every gate condition of `generateIdea` holds: the
newest close (12) breaks the window high (10), the five order-block bars
have dominant bullish bodies, bars 1 and 3 leave an upward fair-value gap,
and the newest volume (10) spikes over the 1.45 average. -/
def goodBars : List Bar :=
  [mkBar 7.2 8 7 7.9 1, mkBar 7.2 8 7 7.9 1] ++
    List.replicate 17 (mkBar 9.1 10 9 9.9 1) ++ [mkBar 11 12.5 10.8 12 10]

/-- The actionable idea `fullAnalysis` produces from `goodBars`. -/
def goodIdea : Idea := (fullAnalysis "BTCUSDT" goodBars).getD default

/-- A non-actionable idea as returned by the gate-failure branch of
`generateIdea` with no detector output at all. -/
def weakIdea : Idea := { ok := false, score := 0, reason := some "Not enough confluence" }

/-- A stored record of maximal confluence score 10, announced at time 0. -/
def idea10 : Idea :=
  { ok := true, symbol := some "BTCUSDT", dir := some Dir.LONG, entry := some 12,
    sl := some 11, tp := some 14, rr := some 2, note := some "BOS_UP FVG_UP OB_BULL Hammer LIQUIDITY_ZONE",
    score := 10 }

/-!  ## Claim theorems  -/

/-- C1: for every combination of detector outputs and price, `generateIdea`
returns `ok = true` exactly when a direction (from BOS Up or Down), a
fair-value gap, an order block with a bullish or bearish bar, and a
liquidity zone are all present and the confluence score is at least 6;
and removing any one of those four presences, holding the others, forces
`ok = false` whatever the score evaluates to. -/
theorem generateIdea_ok_iff (symbol : String) (price : ℚ) (bos : Option BOS)
    (fvg : Option FVG) (ob : OrderBlocks) (pattern : Option CandlePattern) (liq : Option Liq) :
    ((generateIdea symbol price bos fvg ob pattern liq).ok = true ↔
      ((dirOf bos).isSome = true ∧ fvg.isSome = true ∧
        (ob.bullish.isSome = true ∨ ob.bearish.isSome = true) ∧ liq.isSome = true ∧
        6 ≤ scoreIdea bos fvg ob pattern liq)) ∧
    (generateIdea symbol price none fvg ob pattern liq).ok = false ∧
    (generateIdea symbol price bos none ob pattern liq).ok = false ∧
    (generateIdea symbol price bos fvg ⟨none, none⟩ pattern liq).ok = false ∧
    (generateIdea symbol price bos fvg ob pattern none).ok = false := by
  refine ⟨?_, ?_, ?_, ?_, ?_⟩
  · rw [generateIdea]
    split
    next h => simpa using h
    next h => simpa using h
  · rw [generateIdea]
    split
    next h => simp [dirOf] at h
    next h => rfl
  · rw [generateIdea]
    split
    next h => simp at h
    next h => rfl
  · rw [generateIdea]
    split
    next h => simp at h
    next h => rfl
  · rw [generateIdea]
    split
    next h => simp at h
    next h => rfl

/-- C2: with a stored previous record, an actionable new idea whose score
ties the previous score is announced and overwrites the record with a
fresh timestamp — the tie goes to the newest occurrence. -/
theorem policyStep_tie_announces_new (p : SignalRec) (newIdea : Idea) (now : ℕ)
    (hok : newIdea.ok = true) (hscore : newIdea.score = p.idea.score) :
    policyStep (some p) newIdea now =
      (some (ScanAction.announceNew newIdea), some ⟨newIdea, now⟩) := by
  rw [policyStep]
  simp [hok, le_of_eq hscore.symm]

/-- Witness for C2: previous score 10 at time 0, new actionable idea of
score 10 one minute later — announced and stored. -/
theorem policyStep_tie_announces_new_witness :
    policyStep (some ⟨idea10, 0⟩) idea10 60000 =
      (some (ScanAction.announceNew idea10), some ⟨idea10, 60000⟩) :=
  policyStep_tie_announces_new ⟨idea10, 0⟩ idea10 60000 (by rfl) (by rfl)

/-- C3: with a stored previous record of strictly greater score, an
actionable new idea arriving less than 10 minutes after the previous
announcement produces no announcement at all and leaves the stored record
unchanged. -/
theorem policyStep_suppresses_weaker_recent (p : SignalRec) (newIdea : Idea) (now : ℕ)
    (hok : newIdea.ok = true) (hscore : newIdea.score < p.idea.score)
    (helapsed : now - p.time < 10 * 60000) :
    policyStep (some p) newIdea now = (none, some p) := by
  rw [policyStep]
  simp [hok, not_le_of_lt hscore, not_lt_of_lt helapsed]

/-- Witness for C3: previous score 10 at time 0, new actionable idea of
score 8 one minute later — suppressed, record untouched. -/
theorem policyStep_suppresses_weaker_recent_witness :
    policyStep (some ⟨idea10, 0⟩) { idea10 with score := 8 } 60000 = (none, some ⟨idea10, 0⟩) :=
  policyStep_suppresses_weaker_recent ⟨idea10, 0⟩ { idea10 with score := 8 } 60000
    (by rfl) (by decide) (by decide)

/-- C5 (failing input): `detectLiquidity` — the variant without a length
guard, src/bot.js lines 124-131 — applied to the empty bar sequence reads
the `vol` field of `undefined` (`recent.at(-1)`) and raises a `TypeError`
instead of returning null, contradicting the never-raise contract that
every other detector (and every guarded copy of the liquidity detector)
satisfies. -/
theorem detectLiquidity_raises_on_empty :
    detectLiquidity [] =
      Except.error "TypeError: Cannot read properties of undefined (reading vol)" := rfl

/-- Unfolding equation for `runPolicy` on a cons cell. -/
theorem runPolicy_cons (st : Option SignalRec) (now : ℕ) (idea : Idea) (rest : List (ℕ × Idea)) :
    runPolicy st ((now, idea) :: rest) =
      ((((policyStep st idea now).1.map (fun a => (now, a))).toList ++
          (runPolicy (policyStep st idea now).2 rest).1),
        (runPolicy (policyStep st idea now).2 rest).2) := rfl

/-- While every incoming idea is non-actionable or strictly weaker than the
stored one, the continuity policy only ever re-announces the stored idea,
keeps storing that same idea (with refreshed timestamps), and separates
consecutive emissions by strictly more than 5 minutes. -/
theorem runPolicy_weak_aux (i : Idea) (t : ℕ) (trace : List (ℕ × Idea))
    (h : ∀ ni ∈ trace, ni.2.ok = false ∨ ni.2.score < i.score) :
    List.Chain' (fun a b => 5 * 60000 < b - a)
      (t :: (runPolicy (some ⟨i, t⟩) trace).1.map Prod.fst) ∧
    (∀ a ∈ (runPolicy (some ⟨i, t⟩) trace).1, ∃ t0, a.2 = ScanAction.reannounce ⟨i, t0⟩) ∧
    (∃ t1, (runPolicy (some ⟨i, t⟩) trace).2 = some ⟨i, t1⟩) := by
  induction trace generalizing t with
  | nil => exact ⟨List.chain'_singleton t, by simp [runPolicy], ⟨t, rfl⟩⟩
  | cons ni rest ih =>
    obtain ⟨now, idea⟩ := ni
    have hd := h _ (List.mem_cons_self _ _)
    have hrest : ∀ x ∈ rest, x.2.ok = false ∨ x.2.score < i.score :=
      fun x hx => h x (List.mem_cons_of_mem _ hx)
    by_cases hok : idea.ok = true
    · have hscore : idea.score < i.score := by
        rcases hd with hfalse | hs
        · rw [hok] at hfalse; cases hfalse
        · exact hs
      by_cases htime : 10 * 60000 < now - t
      · have hstep : policyStep (some ⟨i, t⟩) idea now =
            (some (ScanAction.reannounce ⟨i, t⟩), some ⟨i, now⟩) := by
          rw [policyStep]; simp [hok, not_le_of_lt hscore, htime]
        obtain ⟨ch, hact, hfin⟩ := ih now hrest
        refine ⟨?_, ?_, by rw [runPolicy_cons, hstep]; exact hfin⟩
        · rw [runPolicy_cons, hstep]
          simpa [List.chain'_cons] using ⟨lt_trans (by norm_num) htime, ch⟩
        · rw [runPolicy_cons, hstep]
          intro a ha
          rcases List.mem_cons.mp (by simpa using ha) with rfl | hmem
          · exact ⟨t, rfl⟩
          · exact hact a hmem
      · have hstep : policyStep (some ⟨i, t⟩) idea now = (none, some ⟨i, t⟩) := by
          rw [policyStep]; simp [hok, not_le_of_lt hscore, htime]
        simpa [runPolicy_cons, hstep] using ih t hrest
    · have hok' : idea.ok = false := by
        cases hb : idea.ok
        · rfl
        · exact absurd hb hok
      by_cases hcond : idea.score < i.score ∧ 5 * 60000 < now - t
      · have hstep : policyStep (some ⟨i, t⟩) idea now =
            (some (ScanAction.reannounce ⟨i, t⟩), some ⟨i, now⟩) := by
          rw [policyStep]; simp [hok', hcond]
        obtain ⟨ch, hact, hfin⟩ := ih now hrest
        refine ⟨?_, ?_, by rw [runPolicy_cons, hstep]; exact hfin⟩
        · rw [runPolicy_cons, hstep]
          simpa [List.chain'_cons] using ⟨hcond.2, ch⟩
        · rw [runPolicy_cons, hstep]
          intro a ha
          rcases List.mem_cons.mp (by simpa using ha) with rfl | hmem
          · exact ⟨t, rfl⟩
          · exact hact a hmem
      · have hstep : policyStep (some ⟨i, t⟩) idea now = (none, some ⟨i, t⟩) := by
          rw [policyStep]; simp [hok', hcond]
        simpa [runPolicy_cons, hstep] using ih t hrest

/-- When every incoming idea is actionable but strictly weaker, consecutive
re-announcements are separated by strictly more than 10 minutes. -/
theorem runPolicy_ok_aux (i : Idea) (t : ℕ) (trace : List (ℕ × Idea))
    (h : ∀ ni ∈ trace, ni.2.ok = true ∧ ni.2.score < i.score) :
    List.Chain' (fun a b => 10 * 60000 < b - a)
      (t :: (runPolicy (some ⟨i, t⟩) trace).1.map Prod.fst) := by
  induction trace generalizing t with
  | nil => exact List.chain'_singleton t
  | cons ni rest ih =>
    obtain ⟨now, idea⟩ := ni
    obtain ⟨hok0, hscore0⟩ := h _ (List.mem_cons_self _ _)
    have hok : idea.ok = true := hok0
    have hscore : idea.score < i.score := hscore0
    have hrest : ∀ x ∈ rest, x.2.ok = true ∧ x.2.score < i.score :=
      fun x hx => h x (List.mem_cons_of_mem _ hx)
    by_cases htime : 10 * 60000 < now - t
    · have hstep : policyStep (some ⟨i, t⟩) idea now =
          (some (ScanAction.reannounce ⟨i, t⟩), some ⟨i, now⟩) := by
        rw [policyStep]; simp [hok, not_le_of_lt hscore, htime]
      rw [runPolicy_cons, hstep]
      simpa [List.chain'_cons] using ⟨htime, ih now hrest⟩
    · have hstep : policyStep (some ⟨i, t⟩) idea now = (none, some ⟨i, t⟩) := by
        rw [policyStep]; simp [hok, not_le_of_lt hscore, htime]
      simpa [runPolicy_cons, hstep] using ih t hrest

/-- C4 (amended): after an idea is announced and stored, while every
subsequent new idea for the symbol is non-actionable or scores below the
stored score, every action the policy emits is a re-announcement of the
stored idea (timestamp refreshed, stored idea itself unchanged), and any
two of the announcement times — the original announcement and all
re-announcements — are strictly more than 5 minutes apart, so the previous
idea is never re-announced twice within the same 5-minute window; the
spacing is strictly more than 10 minutes when every intervening idea is
actionable.  (The 10-minute spacing of the original claim holds only in
that sub-case: the non-actionable branch of the policy re-announces on a
5-minute threshold.) -/
theorem runPolicy_reannounce_spacing (i : Idea) (t : ℕ) (trace : List (ℕ × Idea))
    (h : ∀ ni ∈ trace, ni.2.ok = false ∨ ni.2.score < i.score) :
    List.Pairwise (fun a b => 5 * 60000 < b - a)
      (t :: (runPolicy (some ⟨i, t⟩) trace).1.map Prod.fst) ∧
    (∀ a ∈ (runPolicy (some ⟨i, t⟩) trace).1, ∃ t0, a.2 = ScanAction.reannounce ⟨i, t0⟩) ∧
    (∃ t1, (runPolicy (some ⟨i, t⟩) trace).2 = some ⟨i, t1⟩) ∧
    ((∀ ni ∈ trace, ni.2.ok = true) →
      List.Pairwise (fun a b => 10 * 60000 < b - a)
        (t :: (runPolicy (some ⟨i, t⟩) trace).1.map Prod.fst)) := by
  obtain ⟨ch, hact, hfin⟩ := runPolicy_weak_aux i t trace h
  have trans5 : IsTrans ℕ (fun a b => 5 * 60000 < b - a) := ⟨fun a b c hab hbc => by omega⟩
  refine ⟨(@List.chain'_iff_pairwise _ _ trans5 _).mp ch, hact, hfin, ?_⟩
  intro hall
  have h2 : ∀ ni ∈ trace, ni.2.ok = true ∧ ni.2.score < i.score := fun ni hni =>
    ⟨hall ni hni, (h ni hni).resolve_left (fun hf => by rw [hall ni hni] at hf; cases hf)⟩
  have trans10 : IsTrans ℕ (fun a b => 10 * 60000 < b - a) := ⟨fun a b c hab hbc => by omega⟩
  exact (@List.chain'_iff_pairwise _ _ trans10 _).mp (runPolicy_ok_aux i t trace h2)

/-- C4 (counterexample): with an idea of score 10 stored at time 0 and
non-actionable ideas arriving at 6 and 12 minutes, the policy re-announces
the stored idea on BOTH cycles — two re-announcements 6 minutes and 1 ms
apart, inside one 10-minute window — because the non-actionable branch
re-announces on a 5-minute, not 10-minute, threshold. -/
theorem runPolicy_reannounces_twice_within_ten_minutes :
    (runPolicy (some ⟨idea10, 0⟩) [(360001, weakIdea), (720002, weakIdea)]).1 =
      [(360001, ScanAction.reannounce ⟨idea10, 0⟩),
        (720002, ScanAction.reannounce ⟨idea10, 360001⟩)] ∧
    720002 - 360001 < 10 * 60000 := ⟨rfl, by decide⟩

/-- Witness for C4 (amended): stored score 10 at time 0 and one
non-actionable idea at 6 minutes. -/
theorem runPolicy_reannounce_spacing_witness :
    List.Pairwise (fun a b => 5 * 60000 < b - a)
      (0 :: (runPolicy (some ⟨idea10, 0⟩) [(360001, weakIdea)]).1.map Prod.fst) ∧
    (∀ a ∈ (runPolicy (some ⟨idea10, 0⟩) [(360001, weakIdea)]).1,
      ∃ t0, a.2 = ScanAction.reannounce ⟨idea10, t0⟩) ∧
    (∃ t1, (runPolicy (some ⟨idea10, 0⟩) [(360001, weakIdea)]).2 = some ⟨idea10, t1⟩) ∧
    ((∀ ni ∈ [(360001, weakIdea)], ni.2.ok = true) →
      List.Pairwise (fun a b => 10 * 60000 < b - a)
        (0 :: (runPolicy (some ⟨idea10, 0⟩) [(360001, weakIdea)]).1.map Prod.fst)) :=
  runPolicy_reannounce_spacing idea10 0 [(360001, weakIdea)] (by decide)

/-- C6 (amended): within one scan cycle, a symbol whose bar fetch comes
back empty is simply skipped — the remaining symbols are processed exactly
as if it were not in the list; but a symbol whose processing throws an
exception aborts the cycle: the exception is only caught by the handler
wrapping the whole loop, so no announcement is emitted and no store update
happens for the remaining symbols of that cycle. -/
theorem runCycleExc_isolation (store : Store) (outcome : String → SymOutcome) (now : ℕ)
    (a : String) (rest : List String) :
    (outcome a = SymOutcome.bars [] →
      runCycleExc outcome now store (a :: rest) = runCycleExc outcome now store rest) ∧
    (outcome a = SymOutcome.exn →
      runCycleExc outcome now store (a :: rest) = ([], store)) := by
  constructor
  · intro h
    simp [runCycleExc, h, processSymbol, fullAnalysis]
  · intro h
    simp [runCycleExc, h]

/-- C6 (counterexample): with symbol AAA throwing during processing, the
cycle over [AAA, BTCUSDT] emits no announcement at all — BTCUSDT is never
analyzed — even though the same cycle over [BTCUSDT] alone announces an
idea for it. -/
theorem runCycleExc_exception_not_isolated :
    (runCycleExc (fun s => if s = "AAA" then SymOutcome.exn else SymOutcome.bars goodBars) 0
        emptyStore ["AAA", "BTCUSDT"]).1 = [] ∧
    ((runCycleExc (fun s => if s = "AAA" then SymOutcome.exn else SymOutcome.bars goodBars) 0
        emptyStore ["BTCUSDT"]).1.map Prod.fst) = ["BTCUSDT"] := by
  constructor
  · rfl
  · set_option maxRecDepth 40000 in with_unfolding_all decide

/-- Witness for C6 (amended): an empty fetch for AAA leaves the rest of the
cycle identical to the cycle without AAA. -/
theorem runCycleExc_isolation_witness :
    runCycleExc (fun s => if s = "AAA" then SymOutcome.bars [] else SymOutcome.bars goodBars) 0
        emptyStore ["AAA", "BTCUSDT"] =
      runCycleExc (fun s => if s = "AAA" then SymOutcome.bars [] else SymOutcome.bars goodBars) 0
        emptyStore ["BTCUSDT"] :=
  (runCycleExc_isolation emptyStore
    (fun s => if s = "AAA" then SymOutcome.bars [] else SymOutcome.bars goodBars) 0
    "AAA" ["BTCUSDT"]).1 (by rfl)

/-- Every record of a `lastSignals` store is an actionable idea with all
its announcement fields present. -/
def GoodStore (store : Store) : Prop :=
  ∀ s r, store s = some r → ActionableShape r.idea

/-- The `ok:true` branch of `generateIdea` populates every announcement
field. -/
theorem generateIdea_shape (symbol : String) (price : ℚ) (bos : Option BOS)
    (fvg : Option FVG) (ob : OrderBlocks) (pattern : Option CandlePattern) (liq : Option Liq)
    (hok : (generateIdea symbol price bos fvg ob pattern liq).ok = true) :
    ActionableShape (generateIdea symbol price bos fvg ob pattern liq) := by
  rw [generateIdea] at hok ⊢
  split
  next h => exact ⟨rfl, rfl, h.1, rfl, rfl, rfl, rfl, rfl⟩
  next h => rw [if_neg h] at hok; exact Bool.noConfusion hok

/-- An idea delivered by `fullAnalysis` with `ok = true` has the actionable
shape. -/
theorem fullAnalysis_shape (s : String) (kl : List Bar) (i : Idea)
    (h : fullAnalysis s kl = some i) (hok : i.ok = true) : ActionableShape i := by
  rw [fullAnalysis] at h
  cases hkl : kl.getLast? with
  | none => rw [hkl] at h; cases h
  | some lastBar =>
    rw [hkl] at h
    have := (Option.some.injEq _ _).mp h
    subst this
    exact generateIdea_shape _ _ _ _ _ _ _ hok

/-- Whatever `policyStep` stores is either the previous record's idea (with
a possibly refreshed timestamp) or the new idea, and in the latter case the
new idea is actionable. -/
theorem policyStep_store_cases (prev : Option SignalRec) (newIdea : Idea) (now : ℕ)
    (r : SignalRec) (h : (policyStep prev newIdea now).2 = some r) :
    (∃ p, prev = some p ∧ r.idea = p.idea) ∨ (r = ⟨newIdea, now⟩ ∧ newIdea.ok = true) := by
  by_cases hok : newIdea.ok = false
  · cases prev with
    | none =>
      have hstep : policyStep none newIdea now = (none, none) := by
        rw [policyStep]; simp [hok]
      rw [hstep] at h
      exact absurd h (by simp)
    | some p =>
      refine Or.inl ⟨p, rfl, ?_⟩
      by_cases hc : newIdea.score < p.idea.score ∧ 5 * 60000 < now - p.time
      · have hstep : policyStep (some p) newIdea now =
            (some (ScanAction.reannounce p), some ⟨p.idea, now⟩) := by
          rw [policyStep]; simp [hok, hc]
        rw [hstep] at h
        cases (Option.some.injEq _ _).mp h
        rfl
      · have hstep : policyStep (some p) newIdea now = (none, some p) := by
          rw [policyStep]; simp [hok, hc]
        rw [hstep] at h
        cases (Option.some.injEq _ _).mp h
        rfl
  · have hok' : newIdea.ok = true := by
      cases hb : newIdea.ok
      · exact absurd hb hok
      · rfl
    cases prev with
    | none =>
      have hstep : policyStep none newIdea now =
          (some (ScanAction.announceNew newIdea), some ⟨newIdea, now⟩) := by
        rw [policyStep]; simp [hok']
      rw [hstep] at h
      cases (Option.some.injEq _ _).mp h
      exact Or.inr ⟨rfl, hok'⟩
    | some p =>
      by_cases hs : p.idea.score ≤ newIdea.score
      · have hstep : policyStep (some p) newIdea now =
            (some (ScanAction.announceNew newIdea), some ⟨newIdea, now⟩) := by
          rw [policyStep]; simp [hok', hs]
        rw [hstep] at h
        cases (Option.some.injEq _ _).mp h
        exact Or.inr ⟨rfl, hok'⟩
      · refine Or.inl ⟨p, rfl, ?_⟩
        by_cases ht : 10 * 60000 < now - p.time
        · have hstep : policyStep (some p) newIdea now =
              (some (ScanAction.reannounce p), some ⟨p.idea, now⟩) := by
            rw [policyStep]; simp [hok', hs, ht]
          rw [hstep] at h
          cases (Option.some.injEq _ _).mp h
          rfl
        · have hstep : policyStep (some p) newIdea now = (none, some p) := by
            rw [policyStep]; simp [hok', hs, ht]
          rw [hstep] at h
          cases (Option.some.injEq _ _).mp h
          rfl

/-- `processSymbol` preserves the store invariant. -/
theorem processSymbol_preserves (store : Store) (s : String) (kl : List Bar) (now : ℕ)
    (hst : GoodStore store) : GoodStore (processSymbol store s kl now).2 := by
  rw [processSymbol]
  cases hfa : fullAnalysis s kl with
  | none => exact hst
  | some newIdea =>
    intro x r hr
    simp only at hr
    by_cases hx : x = s
    · rw [if_pos hx] at hr
      rcases policyStep_store_cases (store s) newIdea now r hr with ⟨p, hp, hri⟩ | ⟨hr2, hok⟩
      · rw [hri]; exact hst s p hp
      · rw [hr2]; exact fullAnalysis_shape s kl newIdea hfa hok
    · rw [if_neg hx] at hr
      exact hst x r hr

/-- One scan cycle preserves the store invariant, whether or not an
exception cuts it short. -/
theorem runCycleExc_preserves (outcome : String → SymOutcome) (now : ℕ)
    (syms : List String) :
    ∀ store : Store, GoodStore store → GoodStore (runCycleExc outcome now store syms).2 := by
  induction syms with
  | nil => intro store hst; exact hst
  | cons s rest ih =>
    intro store hst
    rw [runCycleExc]
    cases outcome s with
    | exn => exact hst
    | bars kl => exact ih _ (processSymbol_preserves store s kl now hst)

/-- Any sequence of scan cycles preserves the store invariant. -/
theorem runCycles_preserves (cycles : List ((String → SymOutcome) × ℕ × List String)) :
    ∀ store : Store, GoodStore store → GoodStore (runCycles store cycles) := by
  induction cycles with
  | nil => intro store hst; exact hst
  | cons c rest ih =>
    intro store hst
    exact ih _ (runCycleExc_preserves c.1 c.2.1 c.2.2 store hst)

/-- C10: starting from an empty last-signals store, after any sequence of
scan cycles every stored record is an actionable idea — `ok = true` with
symbol, direction, entry, stop-loss, take-profit, risk-reward and note all
present, alongside its announcement timestamp; an `ok = false` idea is
never stored, since only the announce-new branch stores a fresh idea
(which passed the `ok` check) and both re-announce branches re-store the
existing record. -/
theorem lastSignals_store_invariant (cycles : List ((String → SymOutcome) × ℕ × List String))
    (s : String) (r : SignalRec) (h : runCycles emptyStore cycles s = some r) :
    ActionableShape r.idea :=
  runCycles_preserves cycles emptyStore (fun _ _ hr => by cases hr) s r h

set_option maxRecDepth 100000 in
/-- Witness for C10: one cycle over goodBars stores the actionable
`goodIdea` for BTCUSDT, and the invariant applies to it. -/
theorem lastSignals_store_invariant_witness : ActionableShape goodIdea :=
  lastSignals_store_invariant [(fun _ => SymOutcome.bars goodBars, 0, ["BTCUSDT"])]
    "BTCUSDT" ⟨goodIdea, 0⟩
    (by with_unfolding_all rfl)

/-- Modelled from the spec for the refinement comparison of C9: the
actionability gate of `generateIdea` with the `score >= 6` floor removed —
direction, fair-value gap, an order-block polarity and a liquidity zone
all present. -/
def gateNoFloor (bos : Option BOS) (fvg : Option FVG) (ob : OrderBlocks)
    (liq : Option Liq) : Bool :=
  (dirOf bos).isSome && fvg.isSome && (ob.bullish.isSome || ob.bearish.isSome) && liq.isSome

/-- The floor-free gate unpacked into its four presence conditions. -/
theorem gateNoFloor_eq_true_iff (bos : Option BOS) (fvg : Option FVG) (ob : OrderBlocks)
    (liq : Option Liq) :
    gateNoFloor bos fvg ob liq = true ↔
      ((dirOf bos).isSome = true ∧ fvg.isSome = true ∧
        (ob.bullish.isSome = true ∨ ob.bearish.isSome = true) ∧ liq.isSome = true) := by
  rw [gateNoFloor]
  simp [Bool.and_eq_true, Bool.or_eq_true, and_assoc]

/-- A present direction presupposes a present BOS. -/
theorem isSome_of_dirOf (bos : Option BOS) (h : (dirOf bos).isSome = true) :
    bos.isSome = true := by
  cases bos
  · simp [dirOf] at h
  · rfl

/-- When the four presence conditions hold, the confluence score is at
least 3 + 3 + 2 + 1 = 9. -/
theorem score_ge_of_gate (bos : Option BOS) (fvg : Option FVG) (ob : OrderBlocks)
    (pattern : Option CandlePattern) (liq : Option Liq)
    (hg : gateNoFloor bos fvg ob liq = true) : 9 ≤ scoreIdea bos fvg ob pattern liq := by
  obtain ⟨hd, hf, hob, hl⟩ := (gateNoFloor_eq_true_iff bos fvg ob liq).mp hg
  rw [scoreIdea, if_pos (isSome_of_dirOf bos hd), if_pos hf, if_pos hob, if_pos hl]
  split <;> omega

/-- C9: the actionability decision of `generateIdea` coincides with the
floor-free gate on every input — whenever direction, fair-value gap,
order-block polarity and liquidity zone are all present, the confluence
score is already at least 9, so the `score >= 6` floor never changes the
decision. -/
theorem generateIdea_floor_redundant (symbol : String) (price : ℚ) (bos : Option BOS)
    (fvg : Option FVG) (ob : OrderBlocks) (pattern : Option CandlePattern) (liq : Option Liq) :
    ((generateIdea symbol price bos fvg ob pattern liq).ok = gateNoFloor bos fvg ob liq) ∧
    (gateNoFloor bos fvg ob liq = true → 9 ≤ scoreIdea bos fvg ob pattern liq) := by
  refine ⟨?_, score_ge_of_gate bos fvg ob pattern liq⟩
  rw [generateIdea]
  split
  next h =>
    obtain ⟨h1, h2, h3, h4, h5⟩ := h
    rw [gateNoFloor, h1, h2, h4]
    rcases h3 with h3 | h3 <;> simp [h3]
  next h =>
    by_cases hg : gateNoFloor bos fvg ob liq = true
    · exfalso
      obtain ⟨hd, hf, hob, hl⟩ := (gateNoFloor_eq_true_iff bos fvg ob liq).mp hg
      exact h ⟨hd, hf, hob, hl,
        le_trans (by omega) (score_ge_of_gate bos fvg ob pattern liq hg)⟩
    · rw [Bool.not_eq_true] at hg
      rw [hg]

/-- Detector-output fixtures with every gate condition satisfied. -/
def bosUp : BOS := ⟨BosType.BOS_UP, 12⟩

/-- An upward fair-value gap fixture. -/
def fvgUp3 : FVG := ⟨FvgType.FVG_UP, 3, 8, 9⟩

/-- An order-block fixture with a bullish bar. -/
def obBull : OrderBlocks := ⟨some (mkBar 9.1 10 9 9.9 1), none⟩

/-- A liquidity-spike fixture. -/
def liqSpike : Liq := ⟨10, 29 / 20⟩

/-- Witness for C9: all four presences given, the floor-free gate agrees
with `ok` and the score reaches 9. -/
theorem generateIdea_floor_redundant_witness :
    ((generateIdea "X" 100 (some bosUp) (some fvgUp3) obBull none (some liqSpike)).ok =
      gateNoFloor (some bosUp) (some fvgUp3) obBull (some liqSpike)) ∧
    9 ≤ scoreIdea (some bosUp) (some fvgUp3) obBull none (some liqSpike) :=
  ⟨(generateIdea_floor_redundant "X" 100 (some bosUp) (some fvgUp3) obBull none
      (some liqSpike)).1,
    (generateIdea_floor_redundant "X" 100 (some bosUp) (some fvgUp3) obBull none
      (some liqSpike)).2 (by rfl)⟩

/-- Witness for C1: with all four presences the gate passes; dropping the
BOS direction alone flips `ok` to false. -/
theorem generateIdea_ok_iff_witness :
    (generateIdea "X" 100 (some bosUp) (some fvgUp3) obBull none (some liqSpike)).ok = true ∧
    (generateIdea "X" 100 none (some fvgUp3) obBull none (some liqSpike)).ok = false :=
  ⟨(generateIdea_ok_iff "X" 100 (some bosUp) (some fvgUp3) obBull none (some liqSpike)).1.mpr
      ⟨rfl, rfl, Or.inl rfl, rfl, by decide⟩,
    (generateIdea_ok_iff "X" 100 (some bosUp) (some fvgUp3) obBull none (some liqSpike)).2.1⟩

/-- If no index in the scan range carries a gap, the backward scan returns
null. -/
theorem fvgLoop_eq_none (candles : List Bar) (i : ℕ)
    (h : ∀ j, 2 ≤ j → j ≤ i → gapAt candles j = none) : fvgLoop candles i = none := by
  induction i with
  | zero => rfl
  | succ n ih =>
    cases n with
    | zero => rfl
    | succ m =>
      rw [fvgLoop, h (m + 2) (by omega) (le_refl _)]
      exact ih fun j hj1 hj2 => h j hj1 (by omega)

/-- If index `k` carries a gap and every more recent index in range does
not, the backward scan starting at `i ≥ k` returns the gap at `k`. -/
theorem fvgLoop_finds (candles : List Bar) (i : ℕ) (k : ℕ) (g : FVG) (h2 : 2 ≤ k)
    (hki : k ≤ i) (hg : gapAt candles k = some g)
    (habove : ∀ j, k < j → j ≤ i → gapAt candles j = none) :
    fvgLoop candles i = some g := by
  induction i with
  | zero => omega
  | succ n ih =>
    cases n with
    | zero => omega
    | succ m =>
      by_cases hk : k = m + 2
      · subst hk
        rw [fvgLoop, hg]
      · rw [fvgLoop, habove (m + 2) (by omega) (le_refl _)]
        exact ih (by omega) fun j hj1 hj2 => habove j hj1 (by omega)

/-- C8: `detectFVG` scans indices from `length - 3` down to 2, comparing
`bar[i]` against `bar[i-2]` (Up gap when `bar[i].low > bar[i-2].high`,
Down gap when `bar[i].high < bar[i-2].low`, the per-index test being
`gapAt`), and returns the first — most recent — match; with two
non-overlapping gaps at different recencies the more recent one wins, and
with no matching index it returns null. -/
theorem detectFVG_returns_most_recent (candles : List Bar) :
    (∀ k g, 2 ≤ k → k ≤ candles.length - 3 → 5 ≤ candles.length →
      gapAt candles k = some g →
      (∀ j < candles.length - 2, k < j → gapAt candles j = none) →
      detectFVG candles = some g) ∧
    ((∀ j < candles.length - 2, 2 ≤ j → gapAt candles j = none) →
      detectFVG candles = none) := by
  constructor
  · intro k g h2 hk h5 hg habove
    rw [detectFVG, if_neg (by omega)]
    exact fvgLoop_finds candles (candles.length - 3) k g h2 hk hg
      fun j hj1 hj2 => habove j (by omega) hj1
  · intro h
    rw [detectFVG]
    by_cases h5 : candles.length < 5
    · rw [if_pos h5]
    · rw [if_neg h5]
      exact fvgLoop_eq_none candles _ fun j hj1 hj2 => h j (by omega) hj1

/-- Witness for C8: on `goodBars` the gap sits at index 3 (bars 1 and 3),
no more recent index has a gap, and `detectFVG` returns exactly it. -/
theorem detectFVG_returns_most_recent_witness :
    detectFVG goodBars = some ⟨FvgType.FVG_UP, 3, 8, 9⟩ :=
  (detectFVG_returns_most_recent goodBars).1 3 ⟨FvgType.FVG_UP, 3, 8, 9⟩ (by decide)
    (by decide) (by decide) (by decide)
    (by set_option maxRecDepth 40000 in decide)

/-- Rounding to `d` decimals moves a value up by at most half an ulp. -/
theorem toFixedQ_le (d : ℕ) (x : ℚ) : toFixedQ d x ≤ x + 1 / (2 * 10 ^ d) := by
  rw [toFixedQ, div_le_iff (by positivity : (0 : ℚ) < 10 ^ d)]
  calc ((⌊x * 10 ^ d + 1 / 2⌋ : ℤ) : ℚ) ≤ x * 10 ^ d + 1 / 2 := Int.floor_le _
    _ = (x + 1 / (2 * 10 ^ d)) * 10 ^ d := by field_simp; ring

/-- Rounding to `d` decimals moves a value down by strictly less than half
an ulp. -/
theorem lt_toFixedQ (d : ℕ) (x : ℚ) : x - 1 / (2 * 10 ^ d) < toFixedQ d x := by
  rw [toFixedQ, lt_div_iff (by positivity : (0 : ℚ) < 10 ^ d)]
  calc (x - 1 / (2 * 10 ^ d)) * 10 ^ d = x * 10 ^ d + 1 / 2 - 1 := by field_simp; ring
    _ < ((⌊x * 10 ^ d + 1 / 2⌋ : ℤ) : ℚ) := Int.sub_one_lt_floor _

/-- For prices of at least 1/10000, the rounded long-side stop and target
bracket the entry and the rounded risk-reward is positive. -/
theorem long_levels (price : ℚ) (hprice : 1 / 10000 ≤ price) :
    toFixedQ 6 (price * 0.99) < price ∧ price < toFixedQ 6 (price * 1.02) ∧
    0 < toFixedQ 2 |(toFixedQ 6 (price * 1.02) - price) / (price - toFixedQ 6 (price * 0.99))| := by
  have hle99 := toFixedQ_le 6 (price * 0.99)
  have hgt99 := lt_toFixedQ 6 (price * 0.99)
  have hlt102 := lt_toFixedQ 6 (price * 1.02)
  have hulp6 : (1 : ℚ) / (2 * 10 ^ 6) = 1 / 2000000 := by norm_num
  rw [hulp6] at hle99 hgt99 hlt102
  have hsl : toFixedQ 6 (price * 0.99) < price := by nlinarith
  have htp : price < toFixedQ 6 (price * 1.02) := by nlinarith
  refine ⟨hsl, htp, ?_⟩
  have hb : 0 < price - toFixedQ 6 (price * 0.99) := by linarith
  have ha : 0 < toFixedQ 6 (price * 1.02) - price := by linarith
  have hq : 1 / 200 ≤
      (toFixedQ 6 (price * 1.02) - price) / (price - toFixedQ 6 (price * 0.99)) := by
    rw [le_div_iff hb]
    nlinarith
  rw [abs_of_pos (div_pos ha hb)]
  have hfloor := lt_toFixedQ 2
    ((toFixedQ 6 (price * 1.02) - price) / (price - toFixedQ 6 (price * 0.99)))
  have hulp2 : (1 : ℚ) / (2 * 10 ^ 2) = 1 / 200 := by norm_num
  rw [hulp2] at hfloor
  linarith

/-- For prices of at least 1/10000, the rounded short-side stop and target
bracket the entry and the rounded risk-reward is positive. -/
theorem short_levels (price : ℚ) (hprice : 1 / 10000 ≤ price) :
    toFixedQ 6 (price * 0.98) < price ∧ price < toFixedQ 6 (price * 1.01) ∧
    0 < toFixedQ 2 |(toFixedQ 6 (price * 0.98) - price) / (price - toFixedQ 6 (price * 1.01))| := by
  have hle98 := toFixedQ_le 6 (price * 0.98)
  have hgt98 := lt_toFixedQ 6 (price * 0.98)
  have hlt101 := lt_toFixedQ 6 (price * 1.01)
  have hle101 := toFixedQ_le 6 (price * 1.01)
  have hulp6 : (1 : ℚ) / (2 * 10 ^ 6) = 1 / 2000000 := by norm_num
  rw [hulp6] at hle98 hgt98 hlt101 hle101
  have htp : toFixedQ 6 (price * 0.98) < price := by nlinarith
  have hsl : price < toFixedQ 6 (price * 1.01) := by nlinarith
  refine ⟨htp, hsl, ?_⟩
  have ha : toFixedQ 6 (price * 0.98) - price < 0 := by linarith
  have hb : price - toFixedQ 6 (price * 1.01) < 0 := by linarith
  have hquot :
      (toFixedQ 6 (price * 0.98) - price) / (price - toFixedQ 6 (price * 1.01)) =
        (price - toFixedQ 6 (price * 0.98)) / (toFixedQ 6 (price * 1.01) - price) := by
    rw [show price - toFixedQ 6 (price * 0.98) = -(toFixedQ 6 (price * 0.98) - price) by ring,
      show toFixedQ 6 (price * 1.01) - price = -(price - toFixedQ 6 (price * 1.01)) by ring,
      neg_div_neg_eq]
  have hb' : 0 < toFixedQ 6 (price * 1.01) - price := by linarith
  have ha' : 0 < price - toFixedQ 6 (price * 0.98) := by linarith
  have hq : 1 / 200 ≤
      (price - toFixedQ 6 (price * 0.98)) / (toFixedQ 6 (price * 1.01) - price) := by
    rw [le_div_iff hb']
    nlinarith
  rw [hquot, abs_of_pos (div_pos ha' hb')]
  have hfloor := lt_toFixedQ 2
    ((price - toFixedQ 6 (price * 0.98)) / (toFixedQ 6 (price * 1.01) - price))
  have hulp2 : (1 : ℚ) / (2 * 10 ^ 2) = 1 / 200 := by norm_num
  rw [hulp2] at hfloor
  linarith

/-- C7 (amended): for every actionable idea generated from a price of at
least 1/10000 — large enough that the 1% stop band survives rounding to 6
decimals — the entry is the price; a Long idea has stop below entry and
target above it, a Short idea has target below entry and stop above it,
and the risk-reward field is strictly positive.  (At smaller positive
prices the `toFixed(6)` rounding can collapse the bands onto the entry,
which is the counterexample to the unrestricted claim.) -/
theorem generateIdea_levels_ordered (symbol : String) (price : ℚ) (bos : Option BOS)
    (fvg : Option FVG) (ob : OrderBlocks) (pattern : Option CandlePattern) (liq : Option Liq)
    (hprice : 1 / 10000 ≤ price)
    (hok : (generateIdea symbol price bos fvg ob pattern liq).ok = true) :
    (generateIdea symbol price bos fvg ob pattern liq).entry = some price ∧
    ((generateIdea symbol price bos fvg ob pattern liq).dir = some Dir.LONG →
      (generateIdea symbol price bos fvg ob pattern liq).sl.getD 0 < price ∧
      price < (generateIdea symbol price bos fvg ob pattern liq).tp.getD 0) ∧
    ((generateIdea symbol price bos fvg ob pattern liq).dir = some Dir.SHORT →
      (generateIdea symbol price bos fvg ob pattern liq).tp.getD 0 < price ∧
      price < (generateIdea symbol price bos fvg ob pattern liq).sl.getD 0) ∧
    0 < (generateIdea symbol price bos fvg ob pattern liq).rr.getD 0 := by
  have hgate : ((dirOf bos).isSome = true ∧ fvg.isSome = true ∧
      (ob.bullish.isSome = true ∨ ob.bearish.isSome = true) ∧ liq.isSome = true ∧
      6 ≤ scoreIdea bos fvg ob pattern liq) := by
    rw [generateIdea] at hok
    by_cases h : ((dirOf bos).isSome = true ∧ fvg.isSome = true ∧
        (ob.bullish.isSome = true ∨ ob.bearish.isSome = true) ∧ liq.isSome = true ∧
        6 ≤ scoreIdea bos fvg ob pattern liq)
    · exact h
    · rw [if_neg h] at hok
      exact Bool.noConfusion hok
  rw [generateIdea, if_pos hgate]
  cases hdir : dirOf bos with
  | none =>
    rw [hdir] at hgate
    exact absurd hgate.1 (by simp)
  | some d =>
    cases d with
    | LONG =>
      obtain ⟨hsl, htp, hrr⟩ := long_levels price hprice
      simp only [hdir]
      exact ⟨trivial, fun _ => by simpa using ⟨hsl, htp⟩, fun hcontra => by simp at hcontra,
        by simpa using hrr⟩
    | SHORT =>
      obtain ⟨htp, hsl, hrr⟩ := short_levels price hprice
      simp only [hdir]
      exact ⟨trivial, fun hcontra => by simp at hcontra, fun _ => by simpa using ⟨htp, hsl⟩,
        by simpa using hrr⟩

/-- C7 (counterexample): at the positive price 1/1000000 with every gate
condition satisfied, `generateIdea` returns an actionable Long idea whose
take-profit EQUALS the entry (rounding `price * 1.02` to 6 decimals gives
the price back) and whose risk-reward is not positive — in the embedding
the `0/0` risk-reward quotient is the rational 0, and in JS it is `NaN`;
under neither reading is `takeProfit > entry` or `riskRewardRatio > 0`
true, refuting the unrestricted claim. -/
theorem generateIdea_band_collapse_at_tiny_price :
    ((generateIdea "X" (1 / 1000000) (some bosUp) (some fvgUp3) obBull none
        (some liqSpike)).ok = true) ∧
    (0 : ℚ) < 1 / 1000000 ∧
    (generateIdea "X" (1 / 1000000) (some bosUp) (some fvgUp3) obBull none
        (some liqSpike)).dir = some Dir.LONG ∧
    (generateIdea "X" (1 / 1000000) (some bosUp) (some fvgUp3) obBull none
        (some liqSpike)).entry = some (1 / 1000000) ∧
    (generateIdea "X" (1 / 1000000) (some bosUp) (some fvgUp3) obBull none
        (some liqSpike)).tp = some (1 / 1000000) ∧
    (generateIdea "X" (1 / 1000000) (some bosUp) (some fvgUp3) obBull none
        (some liqSpike)).rr = some 0 := by
  have hgate : ((dirOf (some bosUp)).isSome = true ∧ (some fvgUp3).isSome = true ∧
      (obBull.bullish.isSome = true ∨ obBull.bearish.isSome = true) ∧
      (some liqSpike).isSome = true ∧
      6 ≤ scoreIdea (some bosUp) (some fvgUp3) obBull none (some liqSpike)) :=
    ⟨rfl, rfl, Or.inl rfl, rfl, by decide⟩
  have hsl : toFixedQ 6 ((1 / 1000000 : ℚ) * 0.99) = 1 / 1000000 := by
    rw [toFixedQ]; norm_num
  have htp : toFixedQ 6 ((1 / 1000000 : ℚ) * 1.02) = 1 / 1000000 := by
    rw [toFixedQ]; norm_num
  rw [generateIdea, if_pos hgate]
  refine ⟨rfl, by norm_num, rfl, rfl, ?_, ?_⟩
  · simpa using htp
  · simp only [show dirOf (some bosUp) = some Dir.LONG from rfl, if_true]
    rw [hsl, htp, toFixedQ]
    norm_num

/-- Witness for C7 (amended): at price 100 with every gate condition
satisfied, the Long levels bracket the entry and the risk-reward is
positive. -/
theorem generateIdea_levels_ordered_witness :
    (generateIdea "X" 100 (some bosUp) (some fvgUp3) obBull none (some liqSpike)).entry =
      some 100 ∧
    ((generateIdea "X" 100 (some bosUp) (some fvgUp3) obBull none (some liqSpike)).dir =
        some Dir.LONG →
      (generateIdea "X" 100 (some bosUp) (some fvgUp3) obBull none (some liqSpike)).sl.getD 0 <
          100 ∧
        (100 : ℚ) <
          (generateIdea "X" 100 (some bosUp) (some fvgUp3) obBull none (some liqSpike)).tp.getD
            0) ∧
    ((generateIdea "X" 100 (some bosUp) (some fvgUp3) obBull none (some liqSpike)).dir =
        some Dir.SHORT →
      (generateIdea "X" 100 (some bosUp) (some fvgUp3) obBull none (some liqSpike)).tp.getD 0 <
          100 ∧
        (100 : ℚ) <
          (generateIdea "X" 100 (some bosUp) (some fvgUp3) obBull none (some liqSpike)).sl.getD
            0) ∧
    0 < (generateIdea "X" 100 (some bosUp) (some fvgUp3) obBull none (some liqSpike)).rr.getD 0 :=
  generateIdea_levels_ordered "X" 100 (some bosUp) (some fvgUp3) obBull none (some liqSpike)
    (by with_unfolding_all decide) (by rfl)

end AutoTrade
